import Mathlib

/-!
Shallow embedding of the NimbusDb versioned blob-store client and the shard
operation dispatcher, as implemented by the Go sources: the versioned mock
MinIO backend (`mockMinioClient`), the blob `Client` operations
(`ReadFile`, `WriteFile`, `CreateBucket`, `validateBucketName`), and the
per-message dispatch pipeline (`ExtractShardOperationHeaders`,
`handleShardOperation`, `handleWriteOperation`, `handleReadOperation`).

Byte payloads are lists of byte values; Go's nil-vs-empty slice distinction
is `Option Bytes` (`none` = nil slice).  Fallible Go functions returning
`(value, error)` become `Except String value`; operations that mutate the
mock store also return the successor state.  Version identifiers are the
strings `fmt.Sprintf("version-%d", counter)` rendered by `natDecimal`.
-/

/-- Byte payloads (`[]byte` contents) as lists of byte values. -/
abbrev Bytes := List Nat

deriving instance DecidableEq for Except

/-- Decimal digits of a number, most significant first, empty for zero;
the first argument is structural fuel (any amount at least the number
itself suffices). -/
def natDecimalAux : Nat → Nat → List Char
  | 0, _ => []
  | fuel + 1, n =>
    if n = 0 then [] else natDecimalAux fuel (n / 10) ++ [Char.ofNat (48 + n % 10)]

/-- Base-10 rendering of a natural number, as Go prints integers
(`fmt.Sprintf` with verb `d`). -/
def natDecimal (n : Nat) : String :=
  if n = 0 then "0" else String.mk (natDecimalAux n n)

/-- Numeric value of a decimal digit character. -/
def digitVal (c : Char) : Nat := c.toNat - 48

/-- Value of a most-significant-first decimal digit list. -/
def digitsVal (cs : List Char) : Nat :=
  cs.foldl (fun a c => 10 * a + digitVal c) 0

/-- The version identifier produced by the mock backend for the given
counter value: `fmt.Sprintf("version-%d", j)`. -/
def versionString (j : Nat) : String := "version-" ++ natDecimal j

/-- The lifecycle configuration applied to a bucket
(`applyLifecycleRules` builds the delete-marker rule and the
non-current-version rule from these two day counts). -/
structure LifecycleConfiguration where
  delMarkerExpirationDays : Int
  noncurrentVersionExpirationDays : Int

/-- The blob portion of the application configuration
(`configurations.BlobConfig`), restricted to the fields the embedded
operations consult. -/
structure BlobConfig where
  deleteMarkerCleanupDelayDays : Int
  nonCurrentVersionCleanupDelayDays : Int

/-- The application configuration (`configurations.Config`), restricted to
the fields the embedded operations consult. -/
structure Config where
  blob : BlobConfig

/-- `minio.UploadInfo`, restricted to the fields `PutObject` fills in. -/
structure UploadInfo where
  bucket : String
  key : String
  size : Nat
  versionID : String

/-- State of `mockMinioClient`: the versioned in-memory object store plus
the per-key error-injection tables.  Go maps become function-valued fields;
an `Option` wrapper marks whether the key is present in the map (a nested
Go map may be absent/nil). -/
structure MockMinio where
  buckets : String → Bool
  objects : String → Option (String → Option Bytes)
  objectVersions : String → Option (String → Option (String → Option Bytes))
  latestVersions : String → Option (String → Option String)
  versioning : String → Bool
  versionCounter : Nat
  getObjectErr : String → Option String
  putObjectErr : String → Option String
  bucketExistsErr : String → Option String
  makeBucketErr : String → Option String
  enableVersioningErr : String → Option String
  setLifecycleErr : String → Option String
  lifecycleConfigs : String → Option LifecycleConfiguration

/-- `newMockMinioClient`: every map empty, counter zero. -/
def newMockMinioClient : MockMinio where
  buckets := fun _ => false
  objects := fun _ => none
  objectVersions := fun _ => none
  latestVersions := fun _ => none
  versioning := fun _ => false
  versionCounter := 0
  getObjectErr := fun _ => none
  putObjectErr := fun _ => none
  bucketExistsErr := fun _ => none
  makeBucketErr := fun _ => none
  enableVersioningErr := fun _ => none
  setLifecycleErr := fun _ => none
  lifecycleConfigs := fun _ => none

/-- The nil-guarded nested lookup `objectVersions[bucket][object][versionID]`
performed by the versioned branch of `mockMinioClient.GetObject`. -/
def MockMinio.versionData (m : MockMinio) (bucketName objectName versionID : String) :
    Option Bytes :=
  match m.objectVersions bucketName with
  | none => none
  | some byObject =>
    match byObject objectName with
    | none => none
    | some byVersion => byVersion versionID

/-- Whether some stored version of `(bucketName, objectName)` carries the
identifier `versionID`. -/
def MockMinio.hasStoredVersion (m : MockMinio) (bucketName objectName versionID : String) :
    Bool :=
  (m.versionData bucketName objectName versionID).isSome

/-- The nil-guarded latest-data lookup `objects[bucket][object]` performed
by the unversioned branch of `mockMinioClient.GetObject`. -/
def MockMinio.latestData (m : MockMinio) (bucketName objectName : String) : Option Bytes :=
  match m.objects bucketName with
  | none => none
  | some objs => objs objectName

/-- The latest-version pointer `latestVersions[bucket][object]`. -/
def MockMinio.latestVersionOf (m : MockMinio) (bucketName objectName : String) :
    Option String :=
  match m.latestVersions bucketName with
  | none => none
  | some latest => latest objectName

/-- `mockMinioClient.GetObject` followed by `io.ReadAll`: resolves the
requested version (the latest when `versionID` is empty) to its bytes. -/
def MockMinio.getObject (m : MockMinio) (bucketName objectName versionID : String) :
    Except String Bytes :=
  match m.getObjectErr (bucketName ++ "/" ++ objectName) with
  | some e => .error e
  | none =>
    match m.objects bucketName with
    | none => .error ("bucket " ++ bucketName ++ " does not exist")
    | some bucket =>
      if versionID ≠ "" then
        match m.versionData bucketName objectName versionID with
        | none =>
          .error ("version " ++ versionID ++ " does not exist for object " ++
            objectName ++ " in bucket " ++ bucketName)
        | some d => .ok d
      else
        match bucket objectName with
        | none => .error ("object " ++ objectName ++ " does not exist in bucket " ++ bucketName)
        | some d => .ok d

/-- `mockMinioClient.PutObject`: stores the bytes as the latest data and,
when versioning is enabled on the bucket, also under a fresh
`version-<counter>` identifier, updating the latest-version pointer. -/
def MockMinio.putObject (m : MockMinio) (bucketName objectName : String) (data : Bytes) :
    Except String (UploadInfo × MockMinio) :=
  match m.putObjectErr (bucketName ++ "/" ++ objectName) with
  | some e => .error e
  | none =>
    if m.buckets bucketName = false then
      .error ("bucket " ++ bucketName ++ " does not exist")
    else
      let bucketObjs : String → Option Bytes :=
        match m.objects bucketName with
        | none => fun _ => none
        | some objs => objs
      let m1 : MockMinio :=
        { m with objects := fun b =>
            if b = bucketName then
              some (fun o => if o = objectName then some data else bucketObjs o)
            else m.objects b }
      if m.versioning bucketName then
        let newCounter := m.versionCounter + 1
        let versionID := versionString newCounter
        let bucketVers : String → Option (String → Option Bytes) :=
          match m.objectVersions bucketName with
          | none => fun _ => none
          | some byObject => byObject
        let objVers : String → Option Bytes :=
          match bucketVers objectName with
          | none => fun _ => none
          | some byVersion => byVersion
        let bucketLatest : String → Option String :=
          match m.latestVersions bucketName with
          | none => fun _ => none
          | some latest => latest
        let m2 : MockMinio :=
          { m1 with
            objectVersions := fun b =>
              if b = bucketName then
                some (fun o =>
                  if o = objectName then
                    some (fun v => if v = versionID then some data else objVers v)
                  else bucketVers o)
              else m.objectVersions b
            latestVersions := fun b =>
              if b = bucketName then
                some (fun o => if o = objectName then some versionID else bucketLatest o)
              else m.latestVersions b
            versionCounter := newCounter }
        .ok (⟨bucketName, objectName, data.length, versionID⟩, m2)
      else
        .ok (⟨bucketName, objectName, data.length, ""⟩, m1)

/-- `mockMinioClient.BucketExists`. -/
def MockMinio.bucketExists (m : MockMinio) (bucketName : String) : Except String Bool :=
  match m.bucketExistsErr bucketName with
  | some e => .error e
  | none => .ok (m.buckets bucketName)

/-- `mockMinioClient.MakeBucket`. -/
def MockMinio.makeBucket (m : MockMinio) (bucketName : String) : Except String MockMinio :=
  match m.makeBucketErr bucketName with
  | some e => .error e
  | none =>
    if m.buckets bucketName then
      .error ("bucket " ++ bucketName ++ " already exists")
    else
      .ok { m with
        buckets := fun b => if b = bucketName then true else m.buckets b
        objects := fun b => if b = bucketName then some (fun _ => none) else m.objects b }

/-- `mockMinioClient.EnableVersioning`. -/
def MockMinio.enableVersioning (m : MockMinio) (bucketName : String) : Except String MockMinio :=
  match m.enableVersioningErr bucketName with
  | some e => .error e
  | none =>
    if m.buckets bucketName = false then
      .error ("bucket " ++ bucketName ++ " does not exist")
    else
      .ok { m with versioning := fun b => if b = bucketName then true else m.versioning b }

/-- `mockMinioClient.SetBucketLifecycle`. -/
def MockMinio.setBucketLifecycle (m : MockMinio) (bucketName : String)
    (config : LifecycleConfiguration) : Except String MockMinio :=
  match m.setLifecycleErr bucketName with
  | some e => .error e
  | none =>
    if m.buckets bucketName = false then
      .error ("bucket " ++ bucketName ++ " does not exist")
    else
      .ok { m with lifecycleConfigs := fun b =>
        if b = bucketName then some config else m.lifecycleConfigs b }

/-- `mockMinioClient.createBucketForTesting`: bucket present with an empty
object map and versioning enabled. -/
def MockMinio.createBucketForTesting (m : MockMinio) (bucketName : String) : MockMinio :=
  { m with
    buckets := fun b => if b = bucketName then true else m.buckets b
    objects := fun b => if b = bucketName then some (fun _ => none) else m.objects b
    versioning := fun b => if b = bucketName then true else m.versioning b
    objectVersions := fun b => if b = bucketName then some (fun _ => none) else m.objectVersions b
    latestVersions := fun b => if b = bucketName then some (fun _ => none) else m.latestVersions b }

/-- Lowercase letter or digit (the regex class that must begin and end a
bucket name). -/
def isLowerAlnum (c : Char) : Bool :=
  (('a' ≤ c && c ≤ 'z') || ('0' ≤ c && c ≤ '9'))

/-- A character the bucket-name regex allows in interior positions. -/
def isBucketNameChar (c : Char) : Bool :=
  isLowerAlnum c || c == '.' || c == '-'

/-- The anchored bucket-name regex
`[a-z0-9]([a-z0-9.-]*[a-z0-9])?` applied to the whole name. -/
def bucketNameRegexMatches (cs : List Char) : Bool :=
  match cs with
  | [] => false
  | c0 :: rest =>
    match rest with
    | [] => isLowerAlnum c0
    | _ :: _ =>
      isLowerAlnum c0 && rest.dropLast.all isBucketNameChar &&
        (match rest.getLast? with
         | some clast => isLowerAlnum clast
         | none => false)

/-- `strings.Contains(name, "..")`. -/
def hasConsecutiveDots : List Char → Bool
  | [] => false
  | [_] => false
  | c1 :: c2 :: rest => (c1 == '.' && c2 == '.') || hasConsecutiveDots (c2 :: rest)

/-- `validateBucketName`: byte-length bounds, the naming regex, and the
consecutive-dot check, in the order the Go code applies them. -/
def validateBucketName (bucketName : String) : Except String Unit :=
  if bucketName.utf8ByteSize < 3 ∨ bucketName.utf8ByteSize > 63 then
    .error ("bucket name must be between 3 and 63 characters, got length " ++
      natDecimal bucketName.utf8ByteSize)
  else if bucketNameRegexMatches bucketName.data = false then
    .error ("bucket name contains invalid characters or format: " ++ bucketName)
  else if hasConsecutiveDots bucketName.data then
    .error ("bucket name cannot contain consecutive dots: " ++ bucketName)
  else
    .ok ()

/-- The blob `Client`: the backing store plus the optional application
configuration (`NewClientWithInterface` accepts a nil config). -/
structure Client where
  minioClient : MockMinio
  config : Option Config

/-- `Client.ReadFile`: argument validation, then `GetObject` and
`io.ReadAll` of the resolved version. -/
def Client.readFile (c : Client) (bucketName fileName versionID : String) :
    Except String Bytes :=
  if bucketName = "" then .error ("bucket name cannot be empty")
  else if fileName = "" then .error ("file name cannot be empty")
  else
    match c.minioClient.getObject bucketName fileName versionID with
    | .error e => .error ("failed to get object " ++ fileName ++ ": " ++ e)
    | .ok d => .ok d

/-- `Client.WriteFile`: argument validation (including the nil-payload
rejection), then `PutObject`; returns the new version identifier and the
successor client state. -/
def Client.writeFile (c : Client) (bucketName fileName : String) (data : Option Bytes) :
    Except String String × Client :=
  if bucketName = "" then (.error ("bucket name cannot be empty"), c)
  else if fileName = "" then (.error ("file name cannot be empty"), c)
  else
    match data with
    | none => (.error ("data cannot be nil"), c)
    | some d =>
      match c.minioClient.putObject bucketName fileName d with
      | .error e => (.error ("failed to put object " ++ fileName ++ ": " ++ e), c)
      | .ok (info, m1) => (.ok info.versionID, { c with minioClient := m1 })

/-- `Client.CreateBucket`: name validation, existence check, conditional
creation, versioning, the nil-config guard, and the lifecycle rules, each
step threading the (possibly already mutated) backend state. -/
def Client.createBucket (c : Client) (bucketName : String) :
    Except String Unit × Client :=
  if bucketName = "" then (.error ("bucket name cannot be empty"), c)
  else
    match validateBucketName bucketName with
    | .error e => (.error e, c)
    | .ok _ =>
      match c.minioClient.bucketExists bucketName with
      | .error e => (.error ("failed to check if bucket exists: " ++ e), c)
      | .ok found =>
        let afterMake : Except String MockMinio :=
          if found = false then c.minioClient.makeBucket bucketName
          else .ok c.minioClient
        match afterMake with
        | .error e => (.error ("failed to create bucket " ++ bucketName ++ ": " ++ e), c)
        | .ok m1 =>
          match m1.enableVersioning bucketName with
          | .error e =>
            (.error ("failed to enable versioning on bucket " ++ bucketName ++ ": " ++ e),
              { c with minioClient := m1 })
          | .ok m2 =>
            match c.config with
            | none =>
              (.error ("config is required to apply lifecycle rules to bucket " ++ bucketName),
                { c with minioClient := m2 })
            | some cfg =>
              match m2.setBucketLifecycle bucketName
                  ⟨cfg.blob.deleteMarkerCleanupDelayDays,
                    cfg.blob.nonCurrentVersionCleanupDelayDays⟩ with
              | .error e =>
                (.error ("failed to apply lifecycle rules to bucket " ++ bucketName ++ ": " ++ e),
                  { c with minioClient := m2 })
              | .ok m3 => (.ok (), { c with minioClient := m3 })

/-- Modelled from the spec: `FileExists(bucketName, key)` is an existence
probe used to implement write-if-absent semantics without reading the
payload; its implementation is not under src (only its caller in
`handleWriteOperation` and the `StatObject` interface method are).  Here it
reports whether the latest version of the object exists in the store. -/
def Client.fileExists (c : Client) (bucketName fileName : String) : Except String Bool :=
  match c.minioClient.objects bucketName with
  | none => .ok false
  | some objs => .ok (objs fileName).isSome

/-- `strconv.Atoi` digit scan: the numeric value of a non-empty all-digit
character list, `none` otherwise. -/
def decDigitsVal (cs : List Char) : Option Nat :=
  if cs ≠ [] && cs.all Char.isDigit then some (digitsVal cs) else none

/-- `strconv.Atoi`: optional sign, decimal digits, 64-bit range check. -/
def goAtoi (s : String) : Option Int :=
  let signedDigits : Bool × List Char :=
    match s.data with
    | '+' :: rest => (false, rest)
    | '-' :: rest => (true, rest)
    | cs => (false, cs)
  match decDigitsVal signedDigits.2 with
  | none => none
  | some n =>
    let v : Int := if signedDigits.1 then -(n : Int) else (n : Int)
    if v < -(2 ^ 63) ∨ v > 2 ^ 63 - 1 then none else some v

/-- `strconv.ParseBool`: the exact strings Go accepts. -/
def goParseBool (s : String) : Option Bool :=
  if s = "1" ∨ s = "t" ∨ s = "T" ∨ s = "true" ∨ s = "TRUE" ∨ s = "True" then some true
  else if s = "0" ∨ s = "f" ∨ s = "F" ∨ s = "false" ∨ s = "FALSE" ∨ s = "False" then some false
  else none

/-- An inbound message: header lookup (`Header.Get` yields the empty string
for an absent key) and an opaque, possibly nil, payload. -/
structure NatsMsg where
  header : String → String
  data : Option Bytes

/-- `ShardOperationHeaders`: the routing metadata extracted from a message. -/
structure ShardOperationHeaders where
  operationType : Int
  fileName : String
  bucketName : String
  overwrite : Bool

/-- Operation-type constant `PointWrite`. -/
def PointWrite : Int := 0

/-- Operation-type constant `PointRead`. -/
def PointRead : Int := 1

/-- Operation-type constant `CollectionWrite`. -/
def CollectionWrite : Int := 2

/-- Operation-type constant `CollectionRead`. -/
def CollectionRead : Int := 3

/-- Status constant `SuccessCode`. -/
def SuccessCode : Int := 200

/-- Status constant `ErrorCodeBadRequest`. -/
def ErrorCodeBadRequest : Int := 400

/-- Status constant `ErrorCodeInternalServerError`. -/
def ErrorCodeInternalServerError : Int := 500

/-- `ExtractShardOperationHeaders`: required `type` (integer), `fileName`,
`bucketName`; optional `overwrite` defaulting to true when absent or empty,
rejected when present but unparseable. -/
def ExtractShardOperationHeaders (msg : NatsMsg) : Except String ShardOperationHeaders :=
  if msg.header ("type") = "" then .error ("missing type header")
  else
    match goAtoi (msg.header ("type")) with
    | none => .error ("invalid type header: " ++ msg.header ("type"))
    | some op =>
      if msg.header ("fileName") = "" then .error ("missing fileName header")
      else if msg.header ("bucketName") = "" then .error ("missing bucketName header")
      else if msg.header ("overwrite") = "" then
        .ok ⟨op, msg.header ("fileName"), msg.header ("bucketName"), true⟩
      else
        match goParseBool (msg.header ("overwrite")) with
        | none => .error ("invalid overwrite header: " ++ msg.header ("overwrite"))
        | some ow => .ok ⟨op, msg.header ("fileName"), msg.header ("bucketName"), ow⟩

/-- What the dispatcher publishes back for one message: the JSON envelope
`DbResponse` with its error string and status, or (point-read success only)
the raw object bytes. -/
inductive NatsResponse where
  | envelope (error : String) (status : Int)
  | raw (data : Bytes)
deriving DecidableEq

/-- A call into the blob-storage client, recorded so that a claim of the
form "performs no storage call" is a statement about the trace. -/
inductive BlobCall where
  | fileExistsCall (bucketName fileName : String)
  | writeFileCall (bucketName fileName : String) (data : Option Bytes)
  | readFileCall (bucketName fileName versionID : String)
deriving DecidableEq

/-- `handleWriteOperation`: the overwrite-guard existence check, then the
verbatim write of the message payload; responds 500 on storage errors, 400
on the existing-key conflict, and the success envelope otherwise. -/
def handleWriteOperation (c : Client) (msg : NatsMsg) (fileName bucketName : String)
    (overwrite : Bool) : NatsResponse × Client × List BlobCall :=
  if overwrite = false then
    match c.fileExists bucketName fileName with
    | .error e =>
      (.envelope ("failed to check if file exists: " ++ e) ErrorCodeInternalServerError, c,
        [BlobCall.fileExistsCall bucketName fileName])
    | .ok true =>
      (.envelope ("file already exists: " ++ fileName) ErrorCodeBadRequest, c,
        [BlobCall.fileExistsCall bucketName fileName])
    | .ok false =>
      match c.writeFile bucketName fileName msg.data with
      | (.error e, c1) =>
        (.envelope ("failed to write file: " ++ e) ErrorCodeInternalServerError, c1,
          [BlobCall.fileExistsCall bucketName fileName,
            BlobCall.writeFileCall bucketName fileName msg.data])
      | (.ok _, c1) =>
        (.envelope "" SuccessCode, c1,
          [BlobCall.fileExistsCall bucketName fileName,
            BlobCall.writeFileCall bucketName fileName msg.data])
  else
    match c.writeFile bucketName fileName msg.data with
    | (.error e, c1) =>
      (.envelope ("failed to write file: " ++ e) ErrorCodeInternalServerError, c1,
        [BlobCall.writeFileCall bucketName fileName msg.data])
    | (.ok _, c1) =>
      (.envelope "" SuccessCode, c1,
        [BlobCall.writeFileCall bucketName fileName msg.data])

/-- `handleReadOperation`: latest-version read; raw bytes on success, a 500
envelope on storage errors. -/
def handleReadOperation (c : Client) (fileName bucketName : String) :
    NatsResponse × Client × List BlobCall :=
  match c.readFile bucketName fileName "" with
  | .error e =>
    (.envelope ("failed to read file: " ++ e) ErrorCodeInternalServerError, c,
      [BlobCall.readFileCall bucketName fileName ""])
  | .ok d => (.raw d, c, [BlobCall.readFileCall bucketName fileName ""])

/-- The per-message body of `handleShardOperation`: header extraction, then
routing by operation type; exactly one response is produced. -/
def processShardMessage (c : Client) (msg : NatsMsg) :
    NatsResponse × Client × List BlobCall :=
  match ExtractShardOperationHeaders msg with
  | .error e => (.envelope e ErrorCodeBadRequest, c, [])
  | .ok h =>
    if h.operationType = PointWrite then
      handleWriteOperation c msg h.fileName h.bucketName h.overwrite
    else if h.operationType = PointRead then
      handleReadOperation c h.fileName h.bucketName
    else if h.operationType = CollectionWrite then
      (.envelope ("collection write operation not yet implemented") ErrorCodeBadRequest, c, [])
    else if h.operationType = CollectionRead then
      (.envelope ("collection read operation not yet implemented") ErrorCodeBadRequest, c, [])
    else
      (.envelope ("unknown operation type: " ++ toString h.operationType) ErrorCodeBadRequest,
        c, [])

/-- The worker loop of `handleShardOperation`: drains its queue in order,
fully processing each message (and publishing its one response) before
taking the next. -/
def handleShardOperationLoop : Client → List NatsMsg → List NatsResponse × Client
  | c, [] => ([], c)
  | c, msg :: rest =>
    let step := processShardMessage c msg
    let tail := handleShardOperationLoop step.2.1 rest
    (step.1 :: tail.1, tail.2)

/-- A sample application configuration for concrete instantiations. -/
def testConfig : Config := ⟨⟨1, 1⟩⟩

/-- The client the unit tests build: a fresh mock with the versioned bucket
`test-bucket` pre-created, here paired with a present configuration. -/
def testClient : Client :=
  { minioClient := newMockMinioClient.createBucketForTesting ("test-bucket"),
    config := some testConfig }

/-- `testClient` after one write of `[1, 2]` to key `f` in `test-bucket`. -/
def testClientW1 : Client :=
  (testClient.writeFile ("test-bucket") ("f") (some [1, 2])).2

/-- A well-formed point-write message with the overwrite flag false. -/
def msgWriteNoOverwrite : NatsMsg :=
  { header := fun k =>
      if k = "type" then "0"
      else if k = "fileName" then "f"
      else if k = "bucketName" then "test-bucket"
      else if k = "overwrite" then "false"
      else "",
    data := some [9, 9] }

/-- A message missing the `bucketName` header. -/
def msgMissingBucket : NatsMsg :=
  { header := fun k =>
      if k = "type" then "1"
      else if k = "fileName" then "f"
      else "",
    data := none }

/-- A message whose `overwrite` header is present but not a boolean. -/
def msgBadOverwrite : NatsMsg :=
  { header := fun k =>
      if k = "type" then "0"
      else if k = "fileName" then "f"
      else if k = "bucketName" then "test-bucket"
      else if k = "overwrite" then "maybe"
      else "",
    data := some [1] }

/-- A message with an unknown operation type. -/
def msgUnknownType : NatsMsg :=
  { header := fun k =>
      if k = "type" then "7"
      else if k = "fileName" then "f"
      else if k = "bucketName" then "test-bucket"
      else "",
    data := none }

/-! ### Decimal rendering: value round-trip and injectivity -/

theorem digitsVal_append_singleton (xs : List Char) (c : Char) :
    digitsVal (xs ++ [c]) = 10 * digitsVal xs + digitVal c := by
  simp [digitsVal, List.foldl_append]

theorem digitVal_ofNat (d : Nat) (hd : d < 10) :
    digitVal (Char.ofNat (48 + d)) = d := by
  interval_cases d <;> rfl

theorem digitsVal_natDecimalAux :
    ∀ (fuel n : Nat), n ≤ fuel → digitsVal (natDecimalAux fuel n) = n := by
  intro fuel
  induction fuel with
  | zero =>
    intro n hn
    interval_cases n
    rfl
  | succ f ih =>
    intro n hn
    by_cases h0 : n = 0
    · subst h0; simp [natDecimalAux, digitsVal]
    · rw [natDecimalAux, if_neg h0, digitsVal_append_singleton,
        ih (n / 10) ?_, digitVal_ofNat (n % 10) (Nat.mod_lt _ (by norm_num))]
      · exact Nat.div_add_mod n 10
      · have hlt : n / 10 < n := Nat.div_lt_self (Nat.pos_of_ne_zero h0) (by norm_num)
        omega

theorem digitsVal_natDecimal (n : Nat) : digitsVal (natDecimal n).data = n := by
  by_cases h : n = 0
  · subst h; rfl
  · rw [natDecimal, if_neg h]
    exact digitsVal_natDecimalAux n n le_rfl

theorem natDecimal_injective {a b : Nat} (h : natDecimal a = natDecimal b) : a = b := by
  have h2 := congrArg (fun s => digitsVal (String.data s)) h
  simpa [digitsVal_natDecimal] using h2

theorem versionString_injective {i j : Nat} (h : versionString i = versionString j) :
    i = j := by
  have hd := congrArg String.data h
  rw [versionString, versionString, String.data_append, String.data_append] at hd
  exact natDecimal_injective (String.ext (List.append_cancel_left hd))

theorem versionString_ne_empty (j : Nat) : versionString j ≠ "" := by
  intro h
  have hd := congrArg String.data h
  rw [versionString, String.data_append] at hd
  exact absurd (List.append_eq_nil.mp hd).1 (by decide)

/-! ### Bucket-name regex facts -/

theorem regexMatches_mem_class {cs : List Char}
    (h : bucketNameRegexMatches cs = true) : ∀ ch ∈ cs, isBucketNameChar ch = true := by
  intro ch hch
  match cs with
  | [] => simp at hch
  | [c0] =>
    rw [List.mem_singleton] at hch
    subst hch
    simp only [bucketNameRegexMatches] at h
    simp [isBucketNameChar, h]
  | c0 :: c1 :: rest =>
    simp only [bucketNameRegexMatches, Bool.and_eq_true] at h
    obtain ⟨⟨h0, hmid⟩, hlast⟩ := h
    have hne : (c1 :: rest) ≠ [] := by simp
    rcases List.mem_cons.mp hch with hch0 | hchr
    · subst hch0
      simp [isBucketNameChar, h0]
    · rw [← List.dropLast_concat_getLast hne] at hchr
      rcases List.mem_append.mp hchr with hmem | hmem
      · exact List.all_eq_true.mp hmid ch hmem
      · rw [List.mem_singleton] at hmem
        subst hmem
        rw [List.getLast?_eq_getLast _ hne] at hlast
        simp only [] at hlast
        simp [isBucketNameChar, hlast]

theorem regexMatches_head_last {cs : List Char}
    (h : bucketNameRegexMatches cs = true) :
    (∀ c0, cs.head? = some c0 → isLowerAlnum c0 = true) ∧
    (∀ cl, cs.getLast? = some cl → isLowerAlnum cl = true) := by
  match cs with
  | [] => simp [bucketNameRegexMatches] at h
  | [c0] =>
    simp only [bucketNameRegexMatches] at h
    refine ⟨?_, ?_⟩
    · intro c hc
      rw [List.head?_cons, Option.some.injEq] at hc
      subst hc
      exact h
    · intro c hc
      simp only [List.getLast?_cons, Option.some.injEq] at hc
      subst hc
      exact h
  | c0 :: c1 :: rest =>
    simp only [bucketNameRegexMatches, Bool.and_eq_true] at h
    obtain ⟨⟨h0, _⟩, hlast⟩ := h
    have hne : (c1 :: rest) ≠ [] := by simp
    refine ⟨?_, ?_⟩
    · intro c hc
      rw [List.head?_cons, Option.some.injEq] at hc
      subst hc
      exact h0
    · intro c hc
      rw [List.getLast?_cons_cons, List.getLast?_eq_getLast _ hne, Option.some.injEq] at hc
      rw [List.getLast?_eq_getLast _ hne] at hlast
      simp only [] at hlast
      rw [← hc]
      exact hlast

/-! ### Claim C8 -/

/-- C8: `CreateBucket` fails with a validation error before any storage
call (the client state is returned unchanged) for every bucket name that is
shorter than 3 or longer than 63 bytes, contains a character outside
lowercase alphanumerics, dot, and hyphen, does not both start and end with
an alphanumeric, or contains consecutive dots; moreover the name `ab` and
the name `a..b` are rejected while `valid-bucket1` is accepted. -/
theorem C8_bucket_name_validation (name : String) (c : Client)
    (h : name.utf8ByteSize < 3 ∨ 63 < name.utf8ByteSize ∨
      (∃ ch ∈ name.data, isBucketNameChar ch = false) ∨
      (∃ c0, name.data.head? = some c0 ∧ isLowerAlnum c0 = false) ∨
      (∃ cl, name.data.getLast? = some cl ∧ isLowerAlnum cl = false) ∨
      hasConsecutiveDots name.data = true) :
    (∃ e, validateBucketName name = .error e) ∧
    (∃ e, c.createBucket name = (.error e, c)) ∧
    validateBucketName ("ab") =
      .error ("bucket name must be between 3 and 63 characters, got length 2") ∧
    validateBucketName ("a..b") =
      .error ("bucket name cannot contain consecutive dots: a..b") ∧
    validateBucketName ("valid-bucket1") = .ok () := by
  have hval : ∃ e, validateBucketName name = .error e := by
    by_cases hlen : name.utf8ByteSize < 3 ∨ name.utf8ByteSize > 63
    · exact ⟨_, by rw [validateBucketName, if_pos hlen]⟩
    · have hregfalse : bucketNameRegexMatches name.data = false → ∃ e,
          validateBucketName name = .error e := by
        intro hreg
        exact ⟨_, by rw [validateBucketName, if_neg hlen, if_pos hreg]⟩
      rcases h with h | h | h | h | h | h
      · exact absurd (Or.inl h) hlen
      · exact absurd (Or.inr h) hlen
      · refine hregfalse ?_
        obtain ⟨ch, hmem, hbad⟩ := h
        cases hr : bucketNameRegexMatches name.data with
        | false => rfl
        | true => exact absurd (regexMatches_mem_class hr ch hmem) (by simp [hbad])
      · refine hregfalse ?_
        obtain ⟨c0, hhd, hbad⟩ := h
        cases hr : bucketNameRegexMatches name.data with
        | false => rfl
        | true => exact absurd ((regexMatches_head_last hr).1 c0 hhd) (by simp [hbad])
      · refine hregfalse ?_
        obtain ⟨cl, hlst, hbad⟩ := h
        cases hr : bucketNameRegexMatches name.data with
        | false => rfl
        | true => exact absurd ((regexMatches_head_last hr).2 cl hlst) (by simp [hbad])
      · cases hr : bucketNameRegexMatches name.data with
        | false => exact hregfalse hr
        | true =>
          exact ⟨_, by rw [validateBucketName, if_neg hlen, if_neg (by simp [hr]), if_pos h]⟩
  refine ⟨hval, ?_, rfl, rfl, rfl⟩
  by_cases hemp : name = ""
  · exact ⟨_, by rw [Client.createBucket, if_pos hemp]⟩
  · obtain ⟨e, he⟩ := hval
    exact ⟨e, by rw [Client.createBucket, if_neg hemp, he]⟩

/-- Witness for C8 at the concrete name `ab` (2 bytes, too short). -/
theorem C8_bucket_name_validation_witness :
    ("ab" : String).utf8ByteSize < 3 ∧
    (∃ e, validateBucketName ("ab") = .error e) ∧
    (∃ e, testClient.createBucket ("ab") = (.error e, testClient)) := by
  refine ⟨by decide, ?_⟩
  have h := C8_bucket_name_validation ("ab") testClient (Or.inl (by decide))
  exact ⟨h.1, h.2.1⟩

/-! ### Claims C5 and C9 -/

/-- C5: for every inbound shard-operation message whose headers are missing
`type`, `fileName`, or `bucketName`, or whose `type` header is not an
integer, the dispatcher responds with a client-error envelope (status 400)
and makes no blob-storage call of any kind (empty call trace, client state
unchanged). -/
theorem C5_bad_headers (c : Client) (msg : NatsMsg)
    (h : msg.header ("type") = "" ∨ msg.header ("fileName") = "" ∨
      msg.header ("bucketName") = "" ∨ goAtoi (msg.header ("type")) = none) :
    ∃ e, ExtractShardOperationHeaders msg = .error e ∧
      processShardMessage c msg = (.envelope e ErrorCodeBadRequest, c, []) := by
  have hex : ∃ e, ExtractShardOperationHeaders msg = .error e := by
    by_cases h1 : msg.header ("type") = ""
    · exact ⟨("missing type header"),
        by simp only [ExtractShardOperationHeaders, if_pos h1]⟩
    · cases hA : goAtoi (msg.header ("type")) with
      | none =>
        exact ⟨("invalid type header: " ++ msg.header ("type")),
          by simp only [ExtractShardOperationHeaders, if_neg h1, hA]⟩
      | some op =>
        by_cases h2 : msg.header ("fileName") = ""
        · exact ⟨("missing fileName header"),
            by simp only [ExtractShardOperationHeaders, if_neg h1, hA, if_pos h2]⟩
        · have h3 : msg.header ("bucketName") = "" := by
            rcases h with h | h | h | h
            · exact absurd h h1
            · exact absurd h h2
            · exact h
            · rw [h] at hA
              exact Option.noConfusion hA
          exact ⟨("missing bucketName header"), by
            simp only [ExtractShardOperationHeaders, if_neg h1, hA, if_neg h2, if_pos h3]⟩
  obtain ⟨e, he⟩ := hex
  refine ⟨e, he, ?_⟩
  rw [processShardMessage, he]

/-- Witness for C5: the concrete message lacking its `bucketName` header. -/
theorem C5_bad_headers_witness :
    msgMissingBucket.header ("bucketName") = "" ∧
    ∃ e, ExtractShardOperationHeaders msgMissingBucket = .error e ∧
      processShardMessage testClient msgMissingBucket =
        (.envelope e ErrorCodeBadRequest, testClient, []) :=
  ⟨rfl, C5_bad_headers testClient msgMissingBucket (Or.inr (Or.inr (Or.inl rfl)))⟩

/-- C9: when the optional `overwrite` header is present but not parseable
as a boolean, header extraction fails and the dispatcher responds with a
client error and no storage call, rather than applying a default; the
default `true` is used exactly when the header is absent or empty, and a
parseable header supplies its own value. -/
theorem C9_overwrite_header_parsing (c : Client) (msg : NatsMsg) (op : Int)
    (h1 : msg.header ("type") ≠ "")
    (h2 : goAtoi (msg.header ("type")) = some op)
    (h3 : msg.header ("fileName") ≠ "")
    (h4 : msg.header ("bucketName") ≠ "") :
    (msg.header ("overwrite") ≠ "" → goParseBool (msg.header ("overwrite")) = none →
      ExtractShardOperationHeaders msg =
        .error ("invalid overwrite header: " ++ msg.header ("overwrite")) ∧
      processShardMessage c msg =
        (.envelope ("invalid overwrite header: " ++ msg.header ("overwrite"))
          ErrorCodeBadRequest, c, [])) ∧
    (msg.header ("overwrite") = "" →
      ExtractShardOperationHeaders msg =
        .ok ⟨op, msg.header ("fileName"), msg.header ("bucketName"), true⟩) ∧
    (∀ b, goParseBool (msg.header ("overwrite")) = some b →
      ExtractShardOperationHeaders msg =
        .ok ⟨op, msg.header ("fileName"), msg.header ("bucketName"), b⟩) := by
  refine ⟨?_, ?_, ?_⟩
  · intro h5 h6
    have he : ExtractShardOperationHeaders msg =
        .error ("invalid overwrite header: " ++ msg.header ("overwrite")) := by
      simp only [ExtractShardOperationHeaders, if_neg h1, h2, if_neg h3, if_neg h4,
        if_neg h5, h6]
    refine ⟨he, ?_⟩
    rw [processShardMessage, he]
  · intro h5
    simp only [ExtractShardOperationHeaders, if_neg h1, h2, if_neg h3, if_neg h4, if_pos h5]
  · intro b h5
    have h6 : msg.header ("overwrite") ≠ "" := by
      intro hcontra
      rw [hcontra] at h5
      simp [goParseBool] at h5
    simp only [ExtractShardOperationHeaders, if_neg h1, h2, if_neg h3, if_neg h4,
      if_neg h6, h5]

/-- Witness for C9: the concrete message whose `overwrite` header is the
unparseable string `maybe`. -/
theorem C9_overwrite_header_parsing_witness :
    ExtractShardOperationHeaders msgBadOverwrite =
      .error ("invalid overwrite header: maybe") ∧
    processShardMessage testClient msgBadOverwrite =
      (.envelope ("invalid overwrite header: maybe") ErrorCodeBadRequest,
        testClient, []) := by
  have h := (C9_overwrite_header_parsing testClient msgBadOverwrite 0
    (by decide) rfl (by decide) (by decide)).1 (by decide) rfl
  exact h

/-! ### Claim C4 -/

/-- C4: a point-write whose `overwrite` header is false against an existing
key yields the 400 conflict envelope, leaves the client state unchanged
(in particular every stored version and the latest-version pointer of the
key), and performs no write call — only the existence probe.  The
existence probe `FileExists` is modelled from the spec, its implementation
not being under src. -/
theorem C4_overwrite_conflict (c : Client) (msg : NatsMsg) (fn bn : String)
    (ht : ExtractShardOperationHeaders msg = .ok ⟨PointWrite, fn, bn, false⟩)
    (hex : c.fileExists bn fn = .ok true) :
    processShardMessage c msg =
      (.envelope ("file already exists: " ++ fn) ErrorCodeBadRequest, c,
        [BlobCall.fileExistsCall bn fn]) ∧
    (∀ b1 f1 d1, BlobCall.writeFileCall b1 f1 d1 ∉ (processShardMessage c msg).2.2) ∧
    (∀ v, (processShardMessage c msg).2.1.minioClient.versionData bn fn v =
      c.minioClient.versionData bn fn v) ∧
    (processShardMessage c msg).2.1.minioClient.latestVersionOf bn fn =
      c.minioClient.latestVersionOf bn fn := by
  have hmain : processShardMessage c msg =
      (.envelope ("file already exists: " ++ fn) ErrorCodeBadRequest, c,
        [BlobCall.fileExistsCall bn fn]) := by
    simp only [processShardMessage, ht, handleWriteOperation, hex]
    norm_num [PointWrite]
  refine ⟨hmain, ?_, ?_, ?_⟩
  · intro b1 f1 d1
    rw [hmain]
    simp
  · intro v
    rw [hmain]
  · rw [hmain]

/-- Witness for C4: the pre-written key `f` of `test-bucket` and the
concrete conflicting message. -/
theorem C4_overwrite_conflict_witness :
    processShardMessage testClientW1 msgWriteNoOverwrite =
      (.envelope ("file already exists: f") ErrorCodeBadRequest, testClientW1,
        [BlobCall.fileExistsCall ("test-bucket") ("f")]) :=
  (C4_overwrite_conflict testClientW1 msgWriteNoOverwrite ("f") ("test-bucket")
    rfl rfl).1

/-! ### Claim C6 -/

theorem handleWriteOperation_shape (c : Client) (msg : NatsMsg) (fn bn : String)
    (ow : Bool) :
    ∃ e s, (handleWriteOperation c msg fn bn ow).1 = .envelope e s ∧
      (s = 200 ∨ s = 400 ∨ s = 500) := by
  rw [handleWriteOperation]
  by_cases hov : ow = false
  · rw [if_pos hov]
    cases hfe : c.fileExists bn fn with
    | error e => exact ⟨_, _, rfl, Or.inr (Or.inr rfl)⟩
    | ok b =>
      cases b with
      | true => exact ⟨_, _, rfl, Or.inr (Or.inl rfl)⟩
      | false =>
        cases hw : c.writeFile bn fn msg.data with
        | mk res c1 =>
          cases res with
          | error e => exact ⟨_, _, rfl, Or.inr (Or.inr rfl)⟩
          | ok v => exact ⟨_, _, rfl, Or.inl rfl⟩
  · rw [if_neg hov]
    cases hw : c.writeFile bn fn msg.data with
    | mk res c1 =>
      cases res with
      | error e => exact ⟨_, _, rfl, Or.inr (Or.inr rfl)⟩
      | ok v => exact ⟨_, _, rfl, Or.inl rfl⟩

theorem handleReadOperation_shape (c : Client) (fn bn : String) :
    (∃ d, (handleReadOperation c fn bn).1 = .raw d ∧ c.readFile bn fn "" = .ok d) ∨
    (∃ e, (handleReadOperation c fn bn).1 = .envelope e ErrorCodeInternalServerError) := by
  rw [handleReadOperation]
  cases hr : c.readFile bn fn "" with
  | error e => exact Or.inr ⟨_, rfl⟩
  | ok d => exact Or.inl ⟨d, rfl, rfl⟩

theorem processShardMessage_shape (c : Client) (msg : NatsMsg) :
    (∃ d, (processShardMessage c msg).1 = .raw d) ∨
    (∃ e s, (processShardMessage c msg).1 = .envelope e s ∧
      (s = 200 ∨ s = 400 ∨ s = 500)) := by
  rw [processShardMessage]
  cases hE : ExtractShardOperationHeaders msg with
  | error e => exact Or.inr ⟨e, _, rfl, Or.inr (Or.inl rfl)⟩
  | ok h =>
    by_cases h0 : h.operationType = PointWrite
    · simp only [if_pos h0]
      obtain ⟨e, s, hes, hs⟩ := handleWriteOperation_shape c msg h.fileName h.bucketName
        h.overwrite
      exact Or.inr ⟨e, s, hes, hs⟩
    · simp only [if_neg h0]
      by_cases h1 : h.operationType = PointRead
      · simp only [if_pos h1]
        rcases handleReadOperation_shape c h.fileName h.bucketName with
          ⟨d, hd, _⟩ | ⟨e, he⟩
        · exact Or.inl ⟨d, hd⟩
        · exact Or.inr ⟨e, _, he, Or.inr (Or.inr rfl)⟩
      · simp only [if_neg h1]
        by_cases h2 : h.operationType = CollectionWrite
        · simp only [if_pos h2]
          exact Or.inr ⟨_, _, rfl, Or.inr (Or.inl rfl)⟩
        · simp only [if_neg h2]
          by_cases h3 : h.operationType = CollectionRead
          · simp only [if_pos h3]
            exact Or.inr ⟨_, _, rfl, Or.inr (Or.inl rfl)⟩
          · simp only [if_neg h3]
            exact Or.inr ⟨_, _, rfl, Or.inr (Or.inl rfl)⟩

/-- C6: the worker produces exactly one response per dequeued message, in
order, before taking the next (the loop is a total function emitting one
response per input); every response is either raw bytes or an envelope with
status 200, 400, or 500; collection writes, collection reads, and unknown
operation types always get a 400 envelope; and a raw response happens only
for a successfully executed point-read. -/
theorem C6_response_discipline (c : Client) (msgs : List NatsMsg) :
    (handleShardOperationLoop c msgs).1.length = msgs.length ∧
    (∀ r ∈ (handleShardOperationLoop c msgs).1,
      (∃ d, r = .raw d) ∨
      (∃ e s, r = .envelope e s ∧ (s = 200 ∨ s = 400 ∨ s = 500))) ∧
    (∀ (c1 : Client) (msg : NatsMsg) (h : ShardOperationHeaders),
      ExtractShardOperationHeaders msg = .ok h →
      h.operationType ≠ PointWrite → h.operationType ≠ PointRead →
      ∃ e, (processShardMessage c1 msg).1 = .envelope e ErrorCodeBadRequest) ∧
    (∀ (c1 : Client) (msg : NatsMsg) (d : Bytes),
      (processShardMessage c1 msg).1 = .raw d →
      ∃ h, ExtractShardOperationHeaders msg = .ok h ∧
        h.operationType = PointRead ∧ c1.readFile h.bucketName h.fileName "" = .ok d) := by
  refine ⟨?_, ?_, ?_, ?_⟩
  · induction msgs generalizing c with
    | nil => rfl
    | cons m rest ih =>
      simp only [handleShardOperationLoop, List.length_cons]
      rw [ih]
  · induction msgs generalizing c with
    | nil => intro r hr; simp [handleShardOperationLoop] at hr
    | cons m rest ih =>
      intro r hr
      simp only [handleShardOperationLoop, List.mem_cons] at hr
      rcases hr with hr | hr
      · subst hr
        exact processShardMessage_shape c m
      · exact ih (processShardMessage c m).2.1 r hr
  · intro c1 msg h hE h0 h1
    rw [processShardMessage, hE]
    simp only [if_neg h0, if_neg h1]
    by_cases h2 : h.operationType = CollectionWrite
    · rw [if_pos h2]
      exact ⟨_, rfl⟩
    · rw [if_neg h2]
      by_cases h3 : h.operationType = CollectionRead
      · rw [if_pos h3]
        exact ⟨_, rfl⟩
      · rw [if_neg h3]
        exact ⟨_, rfl⟩
  · intro c1 msg d hraw
    rw [processShardMessage] at hraw
    cases hE : ExtractShardOperationHeaders msg with
    | error e =>
      rw [hE] at hraw
      exact absurd hraw (by simp)
    | ok h =>
      rw [hE] at hraw
      by_cases h0 : h.operationType = PointWrite
      · simp only [if_pos h0] at hraw
        obtain ⟨e, s, hes, _⟩ := handleWriteOperation_shape c1 msg h.fileName h.bucketName
          h.overwrite
        rw [hes] at hraw
        exact absurd hraw (by simp)
      · simp only [if_neg h0] at hraw
        by_cases h1 : h.operationType = PointRead
        · simp only [if_pos h1] at hraw
          rcases handleReadOperation_shape c1 h.fileName h.bucketName with
            ⟨d0, hd0, hr0⟩ | ⟨e, he⟩
          · rw [hd0] at hraw
            have hdd : d0 = d := by
              cases hraw
              rfl
            subst hdd
            exact ⟨h, rfl, h1, hr0⟩
          · rw [he] at hraw
            exact absurd hraw (by simp)
        · simp only [if_neg h1] at hraw
          by_cases h2 : h.operationType = CollectionWrite
          · simp only [if_pos h2] at hraw
            exact absurd hraw (by simp)
          · simp only [if_neg h2] at hraw
            by_cases h3 : h.operationType = CollectionRead
            · simp only [if_pos h3] at hraw
              exact absurd hraw (by simp)
            · simp only [if_neg h3] at hraw
              exact absurd hraw (by simp)

/-- Witness for C6: one concrete message list, and the unknown-type branch
discharged at a concrete message. -/
theorem C6_response_discipline_witness :
    (handleShardOperationLoop testClient [msgUnknownType, msgMissingBucket]).1.length = 2 ∧
    (∃ e, (processShardMessage testClient msgUnknownType).1 =
      .envelope e ErrorCodeBadRequest) := by
  refine ⟨(C6_response_discipline testClient [msgUnknownType, msgMissingBucket]).1, ?_⟩
  exact (C6_response_discipline testClient []).2.2.1 testClient msgUnknownType
    ⟨7, "f", "test-bucket", true⟩ rfl (by decide) (by decide)

/-! ### Claim C3 -/

/-- C3 as frozen states that `WriteFile` with an empty-but-non-nil payload
always succeeds; at the concrete input of an empty bucket name it fails
with a validation error instead. -/
theorem C3_counterexample :
    ((Client.mk newMockMinioClient none).writeFile ("") ("f") (some [])).1 =
      .error ("bucket name cannot be empty") := rfl

/-- C3 (amended): `WriteFile` with a nil payload always fails with a
validation error before any storage call — the client state is unchanged
and the result does not depend on the backend state at all — regardless of
bucket/key validity; `WriteFile` with an empty-but-non-nil payload
succeeds whenever bucket and key are non-empty, the bucket exists, and the
backend reports no error, and the stored object round-trips as
zero-length. -/
theorem C3_nil_vs_empty_payload (c : Client) (b k : String)
    (hb : b ≠ "") (hk : k ≠ "")
    (hbucket : c.minioClient.buckets b = true)
    (hput : c.minioClient.putObjectErr (b ++ "/" ++ k) = none)
    (hget : c.minioClient.getObjectErr (b ++ "/" ++ k) = none) :
    (∀ (c1 : Client) (b1 k1 : String),
      (∃ e, (c1.writeFile b1 k1 none).1 = .error e) ∧ (c1.writeFile b1 k1 none).2 = c1) ∧
    (∀ (c1 c2 : Client) (b1 k1 : String),
      (c1.writeFile b1 k1 none).1 = (c2.writeFile b1 k1 none).1) ∧
    (∃ v, (c.writeFile b k (some [])).1 = .ok v) ∧
    (c.writeFile b k (some [])).2.readFile b k "" = .ok [] := by
  refine ⟨?_, ?_, ?_, ?_⟩
  · intro c1 b1 k1
    rw [Client.writeFile]
    by_cases h1 : b1 = ""
    · rw [if_pos h1]
      exact ⟨⟨_, rfl⟩, rfl⟩
    · rw [if_neg h1]
      by_cases h2 : k1 = ""
      · rw [if_pos h2]
        exact ⟨⟨_, rfl⟩, rfl⟩
      · rw [if_neg h2]
        exact ⟨⟨_, rfl⟩, rfl⟩
  · intro c1 c2 b1 k1
    rw [Client.writeFile, Client.writeFile]
    by_cases h1 : b1 = ""
    · rw [if_pos h1, if_pos h1]
    · rw [if_neg h1, if_neg h1]
      by_cases h2 : k1 = ""
      · rw [if_pos h2, if_pos h2]
      · rw [if_neg h2, if_neg h2]
  · rw [Client.writeFile, if_neg hb, if_neg hk]
    by_cases hv : c.minioClient.versioning b
    · exact ⟨versionString (c.minioClient.versionCounter + 1),
        by simp [MockMinio.putObject, hput, hbucket, hv]⟩
    · exact ⟨"", by simp [MockMinio.putObject, hput, hbucket, hv]⟩
  · rw [Client.writeFile, if_neg hb, if_neg hk]
    by_cases hv : c.minioClient.versioning b
    · simp [MockMinio.putObject, hput, hbucket, hv, Client.readFile, if_neg hb, if_neg hk,
        MockMinio.getObject, hget]
    · simp [MockMinio.putObject, hput, hbucket, hv, Client.readFile, if_neg hb, if_neg hk,
        MockMinio.getObject, hget]

/-- Witness for the amended C3 at the pre-created `test-bucket`. -/
theorem C3_nil_vs_empty_payload_witness :
    (∃ e, (testClient.writeFile ("test-bucket") ("g") none).1 = .error e) ∧
    (∃ v, (testClient.writeFile ("test-bucket") ("g") (some [])).1 = .ok v) ∧
    (testClient.writeFile ("test-bucket") ("g") (some [])).2.readFile
      ("test-bucket") ("g") "" = .ok [] := by
  have h := C3_nil_vs_empty_payload testClient ("test-bucket") ("g")
    (by decide) (by decide) rfl rfl rfl
  exact ⟨(h.1 testClient ("test-bucket") ("g")).1, h.2.2.1, h.2.2.2⟩

/-! ### Claims C7 and C10 -/

theorem createBucket_ok (c : Client) (name : String) (cfg : Config)
    (hval : validateBucketName name = .ok ())
    (hcfg : c.config = some cfg)
    (he1 : c.minioClient.bucketExistsErr name = none)
    (he2 : c.minioClient.makeBucketErr name = none)
    (he3 : c.minioClient.enableVersioningErr name = none)
    (he4 : c.minioClient.setLifecycleErr name = none) :
    (c.createBucket name).1 = .ok () ∧
    (c.createBucket name).2.config = c.config ∧
    (c.createBucket name).2.minioClient.buckets name = true ∧
    (c.createBucket name).2.minioClient.versioning name = true ∧
    (c.createBucket name).2.minioClient.bucketExistsErr name = none ∧
    (c.createBucket name).2.minioClient.makeBucketErr name = none ∧
    (c.createBucket name).2.minioClient.enableVersioningErr name = none ∧
    (c.createBucket name).2.minioClient.setLifecycleErr name = none := by
  have hne : name ≠ "" := by
    intro h
    rw [h] at hval
    exact absurd hval (by decide)
  by_cases hb : c.minioClient.buckets name = true
  · simp [Client.createBucket, if_neg hne, hval, MockMinio.bucketExists,
      MockMinio.makeBucket, MockMinio.enableVersioning, MockMinio.setBucketLifecycle,
      he1, he2, he3, he4, hb, hcfg]
  · have hb0 : c.minioClient.buckets name = false := by
      cases hq : c.minioClient.buckets name
      · rfl
      · exact absurd hq hb
    simp [Client.createBucket, if_neg hne, hval, MockMinio.bucketExists,
      MockMinio.makeBucket, MockMinio.enableVersioning, MockMinio.setBucketLifecycle,
      he1, he2, he3, he4, hb0, hcfg]

/-- C7: `CreateBucket` is idempotent — for a valid name, with the
configuration present and the backend reachable, two successive calls both
succeed (the already-exists case is not an error) and versioning is
enabled after either call. -/
theorem C7_createBucket_idempotent (c : Client) (name : String) (cfg : Config)
    (hval : validateBucketName name = .ok ())
    (hcfg : c.config = some cfg)
    (he1 : c.minioClient.bucketExistsErr name = none)
    (he2 : c.minioClient.makeBucketErr name = none)
    (he3 : c.minioClient.enableVersioningErr name = none)
    (he4 : c.minioClient.setLifecycleErr name = none) :
    (c.createBucket name).1 = .ok () ∧
    (c.createBucket name).2.minioClient.versioning name = true ∧
    ((c.createBucket name).2.createBucket name).1 = .ok () ∧
    ((c.createBucket name).2.createBucket name).2.minioClient.versioning name = true := by
  obtain ⟨h1, h2, _, h4, h5, h6, h7, h8⟩ :=
    createBucket_ok c name cfg hval hcfg he1 he2 he3 he4
  obtain ⟨g1, _, _, g4, _, _, _, _⟩ :=
    createBucket_ok ((c.createBucket name).2) name cfg hval (h2.trans hcfg) h5 h6 h7 h8
  exact ⟨h1, h4, g1, g4⟩

/-- Witness for C7 at the fresh valid name `fresh-bucket`. -/
theorem C7_createBucket_idempotent_witness :
    (testClient.createBucket ("fresh-bucket")).1 = .ok () ∧
    ((testClient.createBucket ("fresh-bucket")).2.createBucket ("fresh-bucket")).1 =
      .ok () := by
  have h := C7_createBucket_idempotent testClient ("fresh-bucket") testConfig
    (by decide) rfl rfl rfl rfl rfl
  exact ⟨h.1, h.2.2.1⟩

/-- C10: with a nil configuration, `CreateBucket` on a valid, absent name
with a reachable backend errors, but only after the bucket has been
created and versioning enabled — the backend state is changed despite the
error. -/
theorem C10_nil_config_createBucket (c : Client) (name : String)
    (hval : validateBucketName name = .ok ())
    (hcfg : c.config = none)
    (habsent : c.minioClient.buckets name = false)
    (he1 : c.minioClient.bucketExistsErr name = none)
    (he2 : c.minioClient.makeBucketErr name = none)
    (he3 : c.minioClient.enableVersioningErr name = none) :
    (c.createBucket name).1 =
      .error ("config is required to apply lifecycle rules to bucket " ++ name) ∧
    (c.createBucket name).2.minioClient.buckets name = true ∧
    (c.createBucket name).2.minioClient.versioning name = true := by
  have hne : name ≠ "" := by
    intro h
    rw [h] at hval
    exact absurd hval (by decide)
  simp [Client.createBucket, if_neg hne, hval, MockMinio.bucketExists,
    MockMinio.makeBucket, MockMinio.enableVersioning,
    he1, he2, he3, habsent, hcfg]

/-- Witness for C10 at the valid absent name `gk-test` on a fresh client
without configuration. -/
theorem C10_nil_config_createBucket_witness :
    ((Client.mk newMockMinioClient none).createBucket ("gk-test")).1 =
      .error ("config is required to apply lifecycle rules to bucket gk-test") ∧
    ((Client.mk newMockMinioClient none).createBucket ("gk-test")).2.minioClient.versioning
      ("gk-test") = true := by
  have h := C10_nil_config_createBucket (Client.mk newMockMinioClient none) ("gk-test")
    (by decide) rfl rfl rfl rfl rfl
  exact ⟨h.1, h.2.2⟩

/-! ### WriteFile success characterization (shared by C1 and C2) -/

theorem writeFile_ok_inv (c : Client) (b k : String) (d : Bytes) (v : String)
    (hw : (c.writeFile b k (some d)).1 = .ok v) :
    b ≠ "" ∧ k ≠ "" ∧ c.minioClient.putObjectErr (b ++ "/" ++ k) = none ∧
    c.minioClient.buckets b = true := by
  by_cases hb : b = ""
  · rw [Client.writeFile, if_pos hb] at hw
    exact absurd hw (by simp)
  · by_cases hk : k = ""
    · rw [Client.writeFile, if_neg hb, if_pos hk] at hw
      exact absurd hw (by simp)
    · refine ⟨hb, hk, ?_⟩
      rw [Client.writeFile, if_neg hb, if_neg hk] at hw
      cases hperr : c.minioClient.putObjectErr (b ++ "/" ++ k) with
      | some e =>
        simp [MockMinio.putObject, hperr] at hw
      | none =>
        cases hbk : c.minioClient.buckets b with
        | false => simp [MockMinio.putObject, hperr, hbk] at hw
        | true => exact ⟨rfl, rfl⟩

theorem writeFile_spec (c : Client) (b k : String) (d : Bytes)
    (hb : b ≠ "") (hk : k ≠ "")
    (hperr : c.minioClient.putObjectErr (b ++ "/" ++ k) = none)
    (hbk : c.minioClient.buckets b = true) :
    (c.minioClient.versioning b = true →
      (c.writeFile b k (some d)).1 =
        .ok (versionString (c.minioClient.versionCounter + 1))) ∧
    (c.minioClient.versioning b = false → (c.writeFile b k (some d)).1 = .ok "") ∧
    (c.writeFile b k (some d)).2.minioClient.getObjectErr = c.minioClient.getObjectErr ∧
    (c.writeFile b k (some d)).2.minioClient.putObjectErr = c.minioClient.putObjectErr ∧
    (c.writeFile b k (some d)).2.minioClient.buckets = c.minioClient.buckets ∧
    (c.writeFile b k (some d)).2.minioClient.versioning = c.minioClient.versioning ∧
    (c.writeFile b k (some d)).2.config = c.config ∧
    ((c.writeFile b k (some d)).2.minioClient.objects b).isSome = true ∧
    (c.writeFile b k (some d)).2.minioClient.latestData b k = some d ∧
    (c.minioClient.versioning b = true →
      (c.writeFile b k (some d)).2.minioClient.versionCounter =
        c.minioClient.versionCounter + 1) ∧
    (c.minioClient.versioning b = true → ∀ v,
      (c.writeFile b k (some d)).2.minioClient.versionData b k v =
        if v = versionString (c.minioClient.versionCounter + 1) then some d
        else c.minioClient.versionData b k v) ∧
    (c.minioClient.versioning b = false → ∀ v,
      (c.writeFile b k (some d)).2.minioClient.versionData b k v =
        c.minioClient.versionData b k v) := by
  refine ⟨?_, ?_, ?_, ?_, ?_, ?_, ?_, ?_, ?_, ?_, ?_, ?_⟩
  · intro hv
    simp [Client.writeFile, if_neg hb, if_neg hk, MockMinio.putObject, hperr, hbk, hv]
  · intro hv
    simp [Client.writeFile, if_neg hb, if_neg hk, MockMinio.putObject, hperr, hbk, hv]
  · by_cases hv : c.minioClient.versioning b <;>
      simp [Client.writeFile, if_neg hb, if_neg hk, MockMinio.putObject, hperr, hbk, hv]
  · by_cases hv : c.minioClient.versioning b <;>
      simp [Client.writeFile, if_neg hb, if_neg hk, MockMinio.putObject, hperr, hbk, hv]
  · by_cases hv : c.minioClient.versioning b <;>
      simp [Client.writeFile, if_neg hb, if_neg hk, MockMinio.putObject, hperr, hbk, hv]
  · by_cases hv : c.minioClient.versioning b <;>
      simp [Client.writeFile, if_neg hb, if_neg hk, MockMinio.putObject, hperr, hbk, hv]
  · by_cases hv : c.minioClient.versioning b <;>
      simp [Client.writeFile, if_neg hb, if_neg hk, MockMinio.putObject, hperr, hbk, hv]
  · by_cases hv : c.minioClient.versioning b <;>
      simp [Client.writeFile, if_neg hb, if_neg hk, MockMinio.putObject, hperr, hbk, hv]
  · by_cases hv : c.minioClient.versioning b <;>
      simp [Client.writeFile, if_neg hb, if_neg hk, MockMinio.putObject, hperr, hbk, hv,
        MockMinio.latestData]
  · intro hv
    simp [Client.writeFile, if_neg hb, if_neg hk, MockMinio.putObject, hperr, hbk, hv]
  · intro hv v
    by_cases hveq : v = versionString (c.minioClient.versionCounter + 1)
    · simp [Client.writeFile, if_neg hb, if_neg hk, MockMinio.putObject, hperr, hbk, hv,
        MockMinio.versionData, hveq]
    · simp only [Client.writeFile, if_neg hb, if_neg hk, MockMinio.putObject, hperr, hbk, hv]
      simp [MockMinio.versionData, hveq]
      cases hov : c.minioClient.objectVersions b with
      | none => simp
      | some byObject =>
        simp only []
        cases hok : byObject k with
        | none => simp [hok]
        | some byVersion => simp [hok]
  · intro hv v
    simp [Client.writeFile, if_neg hb, if_neg hk, MockMinio.putObject, hperr, hbk, hv,
      MockMinio.versionData]

theorem readFile_by_version (c : Client) (b k v : String) (d : Bytes)
    (hb : b ≠ "") (hk : k ≠ "") (hvne : v ≠ "")
    (hg : c.minioClient.getObjectErr (b ++ "/" ++ k) = none)
    (hobj : (c.minioClient.objects b).isSome = true)
    (hdata : c.minioClient.versionData b k v = some d) :
    c.readFile b k v = .ok d := by
  rw [Client.readFile, if_neg hb, if_neg hk]
  cases hobj0 : c.minioClient.objects b with
  | none => rw [hobj0] at hobj; simp at hobj
  | some objs =>
    simp [MockMinio.getObject, hg, hobj0, hvne, hdata]

theorem readFile_latest (c : Client) (b k : String) (d : Bytes)
    (hb : b ≠ "") (hk : k ≠ "")
    (hg : c.minioClient.getObjectErr (b ++ "/" ++ k) = none)
    (hdata : c.minioClient.latestData b k = some d) :
    c.readFile b k "" = .ok d := by
  rw [Client.readFile, if_neg hb, if_neg hk]
  cases hobj0 : c.minioClient.objects b with
  | none =>
    simp [MockMinio.latestData, hobj0] at hdata
  | some objs =>
    simp only [MockMinio.latestData, hobj0] at hdata
    simp [MockMinio.getObject, hg, hobj0, hdata]

/-! ### Claim C1 -/

/-- C1: a successful `WriteFile(bucket, key, data)` (any non-nil payload,
any length including zero) followed by `ReadFile` of the same pair — with
the returned version identifier, or with the empty version identifier
while no later write has occurred — returns exactly `data`.  (`ReadFile`
is pure, so re-reads return the same bytes.) -/
theorem C1_write_read_roundtrip (c : Client) (b k : String) (d : Bytes) (v : String)
    (hw : (c.writeFile b k (some d)).1 = .ok v)
    (hg : c.minioClient.getObjectErr (b ++ "/" ++ k) = none) :
    (c.writeFile b k (some d)).2.readFile b k v = .ok d ∧
    (c.writeFile b k (some d)).2.readFile b k "" = .ok d := by
  obtain ⟨hb, hk, hperr, hbk⟩ := writeFile_ok_inv c b k d v hw
  obtain ⟨sa, sb, sc, _, _, _, _, sh, si, _, sk, _⟩ := writeFile_spec c b k d hb hk hperr hbk
  have hg2 : (c.writeFile b k (some d)).2.minioClient.getObjectErr (b ++ "/" ++ k) = none := by
    rw [sc]
    exact hg
  have hlat : (c.writeFile b k (some d)).2.readFile b k "" = .ok d :=
    readFile_latest _ b k d hb hk hg2 si
  refine ⟨?_, hlat⟩
  by_cases hv : c.minioClient.versioning b
  · rw [sa hv] at hw
    have hveq : versionString (c.minioClient.versionCounter + 1) = v := Except.ok.inj hw
    subst hveq
    refine readFile_by_version _ b k _ d hb hk (versionString_ne_empty _) hg2 sh ?_
    rw [sk hv]
    simp
  · have hv0 : c.minioClient.versioning b = false := by
      cases hq : c.minioClient.versioning b
      · rfl
      · exact absurd hq hv
    rw [sb hv0] at hw
    have hveq : ("" : String) = v := Except.ok.inj hw
    subst hveq
    exact hlat

/-- Witness for C1 on the pre-created versioned `test-bucket`. -/
theorem C1_write_read_roundtrip_witness :
    (testClient.writeFile ("test-bucket") ("f") (some [1, 2])).2.readFile
      ("test-bucket") ("f") ("version-1") = .ok [1, 2] ∧
    (testClient.writeFile ("test-bucket") ("f") (some [1, 2])).2.readFile
      ("test-bucket") ("f") "" = .ok [1, 2] :=
  C1_write_read_roundtrip testClient ("test-bucket") ("f") [1, 2] ("version-1") rfl rfl

/-! ### Claim C2 -/

/-- C2: in a versioning-enabled bucket, two sequential successful
`WriteFile` calls with payloads `p1` then `p2` return version identifiers
`v1 ≠ v2`, both distinct from every version identifier already stored for
that (bucket, key); afterwards `ReadFile` with `v1` returns `p1`, and
`ReadFile` with `v2` or with the empty version identifier returns `p2`
(reads are pure, so this holds for arbitrarily repeated reads). -/
theorem C2_sequential_versioned_writes (c : Client) (b k : String) (p1 p2 : Bytes)
    (v1 v2 : String)
    (hver : c.minioClient.versioning b = true)
    (hg : c.minioClient.getObjectErr (b ++ "/" ++ k) = none)
    (hinv : ∀ vid, c.minioClient.hasStoredVersion b k vid = true →
      ∃ j, j ≤ c.minioClient.versionCounter ∧ vid = versionString j)
    (h1 : (c.writeFile b k (some p1)).1 = .ok v1)
    (h2 : ((c.writeFile b k (some p1)).2.writeFile b k (some p2)).1 = .ok v2) :
    v1 ≠ v2 ∧
    (∀ vid, c.minioClient.hasStoredVersion b k vid = true → vid ≠ v1 ∧ vid ≠ v2) ∧
    ((c.writeFile b k (some p1)).2.writeFile b k (some p2)).2.readFile b k v1 = .ok p1 ∧
    ((c.writeFile b k (some p1)).2.writeFile b k (some p2)).2.readFile b k v2 = .ok p2 ∧
    ((c.writeFile b k (some p1)).2.writeFile b k (some p2)).2.readFile b k "" = .ok p2 := by
  obtain ⟨hb, hk, hperr, hbk⟩ := writeFile_ok_inv c b k p1 v1 h1
  obtain ⟨s1a, _, s1c, s1d, s1e, s1f, _, _, _, s1j, s1k, _⟩ :=
    writeFile_spec c b k p1 hb hk hperr hbk
  have hperr1 : (c.writeFile b k (some p1)).2.minioClient.putObjectErr (b ++ "/" ++ k) =
      none := by
    rw [s1d]
    exact hperr
  have hbk1 : (c.writeFile b k (some p1)).2.minioClient.buckets b = true := by
    rw [s1e]
    exact hbk
  have hver1 : (c.writeFile b k (some p1)).2.minioClient.versioning b = true := by
    rw [s1f]
    exact hver
  have hg1 : (c.writeFile b k (some p1)).2.minioClient.getObjectErr (b ++ "/" ++ k) =
      none := by
    rw [s1c]
    exact hg
  obtain ⟨s2a, _, s2c, _, _, _, _, s2h, s2i, _, s2k, _⟩ :=
    writeFile_spec ((c.writeFile b k (some p1)).2) b k p2 hb hk hperr1 hbk1
  have hctr1 : (c.writeFile b k (some p1)).2.minioClient.versionCounter =
      c.minioClient.versionCounter + 1 := s1j hver
  rw [s1a hver] at h1
  have hv1 : versionString (c.minioClient.versionCounter + 1) = v1 := Except.ok.inj h1
  rw [s2a hver1] at h2
  have hv2x : versionString
      ((c.writeFile b k (some p1)).2.minioClient.versionCounter + 1) = v2 :=
    Except.ok.inj h2
  have hv2 : versionString (c.minioClient.versionCounter + 2) = v2 := by
    rw [← hv2x, hctr1]
  have hg2 : ((c.writeFile b k (some p1)).2.writeFile b k (some p2)).2.minioClient.getObjectErr
      (b ++ "/" ++ k) = none := by
    rw [s2c]
    exact hg1
  have hne12 : v1 ≠ v2 := by
    rw [← hv1, ← hv2]
    intro heq
    have := versionString_injective heq
    omega
  refine ⟨hne12, ?_, ?_, ?_, ?_⟩
  · intro vid hvid
    obtain ⟨j, hj, hjv⟩ := hinv vid hvid
    subst hjv
    constructor
    · rw [← hv1]
      intro heq
      have := versionString_injective heq
      omega
    · rw [← hv2]
      intro heq
      have := versionString_injective heq
      omega
  · refine readFile_by_version _ b k v1 p1 hb hk ?_ hg2 s2h ?_
    · rw [← hv1]
      exact versionString_ne_empty _
    · rw [s2k hver1, if_neg ?_, s1k hver, if_pos hv1.symm]
      rw [hv2x]
      exact hne12
  · refine readFile_by_version _ b k v2 p2 hb hk ?_ hg2 s2h ?_
    · rw [← hv2]
      exact versionString_ne_empty _
    · rw [s2k hver1, if_pos hv2x.symm]
  · exact readFile_latest _ b k p2 hb hk hg2 s2i

/-- Witness for C2: two concrete writes to key `f` of the versioned
`test-bucket`, returning `version-1` then `version-2`. -/
theorem C2_sequential_versioned_writes_witness :
    ("version-1" : String) ≠ "version-2" ∧
    ((testClient.writeFile ("test-bucket") ("f") (some [1, 2])).2.writeFile
      ("test-bucket") ("f") (some [3])).2.readFile ("test-bucket") ("f")
      ("version-1") = .ok [1, 2] ∧
    ((testClient.writeFile ("test-bucket") ("f") (some [1, 2])).2.writeFile
      ("test-bucket") ("f") (some [3])).2.readFile ("test-bucket") ("f")
      ("version-2") = .ok [3] ∧
    ((testClient.writeFile ("test-bucket") ("f") (some [1, 2])).2.writeFile
      ("test-bucket") ("f") (some [3])).2.readFile ("test-bucket") ("f") "" = .ok [3] := by
  have h := C2_sequential_versioned_writes testClient ("test-bucket") ("f") [1, 2] [3]
    ("version-1") ("version-2") rfl rfl
    (by
      intro vid hvid
      simp [testClient, MockMinio.hasStoredVersion, MockMinio.versionData,
        MockMinio.createBucketForTesting, newMockMinioClient] at hvid)
    rfl rfl
  exact ⟨h.1, h.2.2.1, h.2.2.2.1, h.2.2.2.2⟩
